import Mathlib

/-!
Verification of the Flable.ai metrics-aggregation and portfolio-allocation
engine, shallowly embedded from the Python source.

Numeric modelling: Python floats are modelled as exact rationals (ℚ).
Python integers are modelled as ℤ or ℕ.  Python round(x, 2) is modelled by
round-half-to-even at two decimal places over ℚ.  Python dicts keyed by
campaign id are modelled as association lists in insertion order; Python
lookup coincides with first-match lookup whenever the keys are distinct,
which is a hypothesis wherever lookups matter.
-/

/-- Python round(x, 2): round-half-to-even of 100 * x, as an integer. -/
def roundHalfEven (x : ℚ) : ℤ :=
  if x - ⌊x⌋ < 1/2 then ⌊x⌋
  else if 1/2 < x - ⌊x⌋ then ⌊x⌋ + 1
  else if ⌊x⌋ % 2 = 0 then ⌊x⌋ else ⌊x⌋ + 1

/-- Model of Python round(x, 2) on exact rationals. -/
def pyRound2 (x : ℚ) : ℚ := (roundHalfEven (x * 100) : ℚ) / 100

/-- A campaign dict as consumed by BudgetOptimizer.optimize_portfolio in
ml-engine/campaign_optimizer.py.  The id key is mandatory in the source
(subscripted directly); the other keys are read with dict.get defaults. -/
structure Campaign where
  id : ℕ
  roas : Option ℚ
  conversions : Option ℚ
  cost : Option ℚ
  min_budget : Option ℚ
  max_budget : Option ℚ

/-- The per-campaign score dict built by the first loop of optimize_portfolio. -/
structure CampaignScore where
  campaign_id : ℕ
  efficiency : ℚ
  min_budget : ℚ
  max_budget : ℚ
deriving DecidableEq

/-- Efficiency computation of optimize_portfolio for one campaign:
roas = campaign.get(-roas-, 0); conversions = campaign.get(-conversions-, 0);
cost = campaign.get(-cost-, 1); efficiency = roas * 0.7 + conversions / cost * 0.3.
Python raises ZeroDivisionError when the cost key is present with value 0;
the dict.get default applies only when the key is absent. -/
def efficiencyScore (c : Campaign) : Except String ℚ :=
  if c.cost.getD 1 = 0 then Except.error "ZeroDivisionError"
  else Except.ok ((c.roas.getD 0) * (7/10) + (c.conversions.getD 0) / (c.cost.getD 1) * (3/10))

/-- The score record optimize_portfolio builds for one campaign, as a total
function (meaningful whenever the cost guard of efficiencyScore passes). -/
def scoreOf (c : Campaign) : CampaignScore :=
  { campaign_id := c.id
    efficiency := (c.roas.getD 0) * (7/10) + (c.conversions.getD 0) / (c.cost.getD 1) * (3/10)
    min_budget := c.min_budget.getD 10
    max_budget := c.max_budget.getD 1000 }

/-- The first loop of optimize_portfolio: build the campaign_scores list,
propagating the first Python exception encountered. -/
def mkScores : List Campaign → Except String (List CampaignScore)
  | [] => Except.ok []
  | c :: cs =>
    match efficiencyScore c with
    | Except.error e => Except.error e
    | Except.ok e =>
      match mkScores cs with
      | Except.error e2 => Except.error e2
      | Except.ok rest =>
        Except.ok ({ campaign_id := c.id, efficiency := e,
                     min_budget := c.min_budget.getD 10,
                     max_budget := c.max_budget.getD 1000 } :: rest)

/-- Stable insertion into a list sorted descending by efficiency: the new
element goes after every existing element of strictly greater or equal
efficiency that precedes its position, matching Python list.sort stability. -/
def insertDesc (s : CampaignScore) : List CampaignScore → List CampaignScore
  | [] => [s]
  | t :: ts => if s.efficiency < t.efficiency then t :: insertDesc s ts else s :: t :: ts

/-- campaign_scores.sort(key efficiency, reverse): stable descending sort. -/
def sortByEfficiencyDesc : List CampaignScore → List CampaignScore
  | [] => []
  | s :: rest => insertDesc s (sortByEfficiencyDesc rest)

/-- The body of the allocation loop of optimize_portfolio for one score
record: proportional share clamped to the campaign bounds when
total_efficiency is positive, otherwise the unclamped equal split over the
campaign count n. -/
def allocEntry (total_efficiency : ℚ) (n : ℕ) (total_budget : ℚ)
    (s : CampaignScore) : ℕ × ℚ :=
  if 0 < total_efficiency then
    (s.campaign_id,
     pyRound2 (max s.min_budget (min s.max_budget
       (s.efficiency / total_efficiency * total_budget))))
  else
    (s.campaign_id, pyRound2 (total_budget / (n : ℚ)))

/-- BudgetOptimizer.optimize_portfolio from ml-engine/campaign_optimizer.py.
The returned association list is the Python dict in insertion order (the
loop runs over the efficiency-sorted scores). -/
def optimize_portfolio (campaigns : List Campaign) (total_budget : ℚ) :
    Except String (List (ℕ × ℚ)) :=
  match mkScores campaigns with
  | Except.error e => Except.error e
  | Except.ok campaign_scores =>
    let sorted := sortByEfficiencyDesc campaign_scores
    let total_efficiency := (sorted.map (fun s => s.efficiency)).sum
    Except.ok (sorted.map (allocEntry total_efficiency campaigns.length total_budget))

/-- The sum of all efficiency scores of a campaign list (the value the
source calls total_efficiency, stated over the unsorted input). -/
def totalEfficiencyOf (l : List Campaign) : ℚ :=
  (l.map (fun c => (scoreOf c).efficiency)).sum

/-- A rational representable with two decimal places. -/
def is2dp (q : ℚ) : Prop := ∃ k : ℤ, q = (k : ℚ) / 100

/-- One CampaignAnalytics row as read by the analytics routes
(backend/api/routes/analytics.py).  All five raw metrics are modelled as
rationals; the engine accepts negative or inconsistent values as-is. -/
structure AnalyticsRecord where
  impressions : ℚ
  clicks : ℚ
  conversions : ℚ
  cost : ℚ
  revenue : ℚ
deriving DecidableEq

/-- The summary dict built by query_analytics in
backend/api/routes/analytics.py: component-wise totals and four derived
ratios, each guarded by a strictly-positive denominator test. -/
structure AnalyticsSummary where
  total_impressions : ℚ
  total_clicks : ℚ
  total_conversions : ℚ
  total_cost : ℚ
  total_revenue : ℚ
  average_ctr : ℚ
  average_cpc : ℚ
  average_cpa : ℚ
  total_roas : ℚ
deriving DecidableEq

/-- Summary computation of query_analytics (analytics.py lines 47 to 64). -/
def summarize (analytics_data : List AnalyticsRecord) : AnalyticsSummary :=
  let total_impressions := (analytics_data.map (fun a => a.impressions)).sum
  let total_clicks := (analytics_data.map (fun a => a.clicks)).sum
  let total_conversions := (analytics_data.map (fun a => a.conversions)).sum
  let total_cost := (analytics_data.map (fun a => a.cost)).sum
  let total_revenue := (analytics_data.map (fun a => a.revenue)).sum
  { total_impressions := total_impressions
    total_clicks := total_clicks
    total_conversions := total_conversions
    total_cost := total_cost
    total_revenue := total_revenue
    average_ctr := if 0 < total_impressions then total_clicks / total_impressions * 100 else 0
    average_cpc := if 0 < total_clicks then total_cost / total_clicks else 0
    average_cpa := if 0 < total_conversions then total_cost / total_conversions else 0
    total_roas := if 0 < total_cost then total_revenue / total_cost else 0 }

/-- The summary as the spec words it: ratios computed from the totals, with
a zero-guard that returns 0 exactly when the denominator equals 0.  Stated
for refinement comparison against summarize, which guards on positivity. -/
def specSummarize (analytics_data : List AnalyticsRecord) : AnalyticsSummary :=
  let total_impressions := (analytics_data.map (fun a => a.impressions)).sum
  let total_clicks := (analytics_data.map (fun a => a.clicks)).sum
  let total_conversions := (analytics_data.map (fun a => a.conversions)).sum
  let total_cost := (analytics_data.map (fun a => a.cost)).sum
  let total_revenue := (analytics_data.map (fun a => a.revenue)).sum
  { total_impressions := total_impressions
    total_clicks := total_clicks
    total_conversions := total_conversions
    total_cost := total_cost
    total_revenue := total_revenue
    average_ctr := if total_impressions = 0 then 0 else total_clicks / total_impressions * 100
    average_cpc := if total_clicks = 0 then 0 else total_cost / total_clicks
    average_cpa := if total_conversions = 0 then 0 else total_cost / total_conversions
    total_roas := if total_cost = 0 then 0 else total_revenue / total_cost }

/-- The all-zero summary returned for an empty record sequence. -/
def zeroSummary : AnalyticsSummary :=
  { total_impressions := 0, total_clicks := 0, total_conversions := 0
    total_cost := 0, total_revenue := 0
    average_ctr := 0, average_cpc := 0, average_cpa := 0, total_roas := 0 }

/-- One CampaignAnalytics row with its date (as an ordinal) and roas, as
projected by get_campaign_trends into daily_data. -/
structure TrendRecord where
  date : ℕ
  impressions : ℚ
  clicks : ℚ
  conversions : ℚ
  cost : ℚ
  revenue : ℚ
  roas : ℚ
deriving DecidableEq

/-- The totals sub-dict of the trends result. -/
structure TrendTotals where
  impressions : ℚ
  clicks : ℚ
  conversions : ℚ
  cost : ℚ
  revenue : ℚ
deriving DecidableEq

/-- The trends dict returned by get_campaign_trends. -/
structure CampaignTrends where
  period_days : ℤ
  data_points : ℕ
  daily_data : List TrendRecord
  totals : TrendTotals
deriving DecidableEq

/-- Errors surfaced by the analytics routes.  get_campaign_trends raises
only a 404 HTTPException, when the campaign lookup resolves to nothing. -/
inductive ApiError where
  | notFound
  | invalidArgument
deriving DecidableEq

/-- get_campaign_trends from backend/api/routes/analytics.py (lines 93 to
149).  The campaign argument is the result of the ownership query (None
when the campaign does not belong to the user or does not exist); the
analytics argument is the date-filtered, date-ordered record list the
external store returns.  The days parameter is used only to shape the
query window and to echo period_days; the function applies no validation
to it. -/
def get_campaign_trends (campaign : Option Unit) (days : ℤ)
    (analytics : List TrendRecord) : Except ApiError CampaignTrends :=
  match campaign with
  | none => Except.error ApiError.notFound
  | some _ =>
    Except.ok
      { period_days := days
        data_points := analytics.length
        daily_data := analytics
        totals :=
          { impressions := (analytics.map (fun a => a.impressions)).sum
            clicks := (analytics.map (fun a => a.clicks)).sum
            conversions := (analytics.map (fun a => a.conversions)).sum
            cost := (analytics.map (fun a => a.cost)).sum
            revenue := (analytics.map (fun a => a.revenue)).sum } }

/-- A fitted regressor, abstracted as a function from the feature vector to
a predicted value (the sklearn fitting itself is outside the embedding). -/
def FittedModel : Type := List ℚ → ℚ

/-- The trained-model state of CampaignOptimizer: roas_model and
conversion_model both start as None and are set by the train methods. -/
structure CampaignOptimizerState where
  roas_model : Option FittedModel
  conversion_model : Option FittedModel

/-- CampaignOptimizer.[init]: both models start untrained. -/
def initialOptimizer : CampaignOptimizerState :=
  { roas_model := none, conversion_model := none }

/-- train_roas_model: fits and installs the ROAS regressor. -/
def train_roas_model (st : CampaignOptimizerState) (fitted : FittedModel) :
    CampaignOptimizerState :=
  { st with roas_model := some fitted }

/-- train_conversion_model: fits and installs the conversion regressor. -/
def train_conversion_model (st : CampaignOptimizerState) (fitted : FittedModel) :
    CampaignOptimizerState :=
  { st with conversion_model := some fitted }

/-- The error raised by the predict methods on an untrained model
(ValueError with a model-not-trained message in the source). -/
inductive MLError where
  | modelNotTrained
deriving DecidableEq

/-- Truncation toward zero, the behaviour of Python int() on a float. -/
def pyTrunc (x : ℚ) : ℤ := if x < 0 then -⌊-x⌋ else ⌊x⌋

/-- CampaignOptimizer.predict_roas: raises when roas_model is None,
otherwise evaluates the fitted regressor on the feature vector. -/
def predict_roas (st : CampaignOptimizerState) (features : List ℚ) :
    Except MLError ℚ :=
  match st.roas_model with
  | none => Except.error MLError.modelNotTrained
  | some m => Except.ok (m features)

/-- CampaignOptimizer.predict_conversions: raises when conversion_model is
None, otherwise returns max(0, int(prediction)). -/
def predict_conversions (st : CampaignOptimizerState) (features : List ℚ) :
    Except MLError ℤ :=
  match st.conversion_model with
  | none => Except.error MLError.modelNotTrained
  | some m => Except.ok (max 0 (pyTrunc (m features)))

/-- The operations of the predictor interface that mutate training state. -/
inductive OptimizerOp where
  | trainRoas (fitted : FittedModel)
  | trainConversion (fitted : FittedModel)

/-- Apply one training operation to the optimizer state. -/
def applyOp (st : CampaignOptimizerState) : OptimizerOp → CampaignOptimizerState
  | OptimizerOp.trainRoas f => train_roas_model st f
  | OptimizerOp.trainConversion f => train_conversion_model st f

/-- Run a sequence of training operations from a starting state. -/
def runOps (ops : List OptimizerOp) (st : CampaignOptimizerState) :
    CampaignOptimizerState :=
  ops.foldl applyOp st

/-- The campaign dict consumed by generate_recommendations and
recommend_budget; every key is read with a dict.get default. -/
structure CampaignData where
  ctr : Option ℚ
  cpc : Option ℚ
  roas : Option ℚ
  target_roas : Option ℚ
  daily_budget : Option ℚ

/-- The recommendation messages of generate_recommendations, with the
formatted dollar amounts of the two budget messages carried as values. -/
inductive Recommendation where
  | lowCtr
  | scaleCtr
  | highCpc
  | majorRoas
  | optimizeRoas
  | scaleRoas
  | increaseBudget (amount : ℚ)
  | decreaseBudget (amount : ℚ)
  | performingWell
deriving DecidableEq

/-- CampaignOptimizer.recommend_budget: scales daily_budget by a factor
chosen from the ratio of current to target roas, then rounds to 2 places. -/
def recommend_budget (cd : CampaignData) (target_roas : ℚ) : ℚ :=
  let current_budget := cd.daily_budget.getD 0
  let current_roas := cd.roas.getD 0
  pyRound2
    (if target_roas ≤ current_roas then current_budget * (12/10)
     else if target_roas * (8/10) ≤ current_roas then current_budget * (11/10)
     else if target_roas * (5/10) ≤ current_roas then current_budget
     else current_budget * (8/10))

/-- The CTR rule block of generate_recommendations (an if-elif chain). -/
def ctrRecsOf (cd : CampaignData) : List Recommendation :=
  if cd.ctr.getD 0 < 1 then [Recommendation.lowCtr]
  else if 3 < cd.ctr.getD 0 then [Recommendation.scaleCtr]
  else []

/-- The CPC rule block of generate_recommendations. -/
def cpcRecsOf (cd : CampaignData) : List Recommendation :=
  if 5 < cd.cpc.getD 0 then [Recommendation.highCpc] else []

/-- The ROAS rule block of generate_recommendations (an if-elif chain
against target_roas, defaulted to 3.0). -/
def roasRecsOf (cd : CampaignData) : List Recommendation :=
  if cd.roas.getD 0 < cd.target_roas.getD 3 * (5/10) then [Recommendation.majorRoas]
  else if cd.roas.getD 0 < cd.target_roas.getD 3 then [Recommendation.optimizeRoas]
  else if cd.target_roas.getD 3 * (15/10) < cd.roas.getD 0 then [Recommendation.scaleRoas]
  else []

/-- The budget rule block of generate_recommendations: compares the
recommend_budget output against the current daily_budget. -/
def budgetRecsOf (cd : CampaignData) : List Recommendation :=
  if cd.daily_budget.getD 0 < recommend_budget cd (cd.target_roas.getD 3) then
    [Recommendation.increaseBudget (recommend_budget cd (cd.target_roas.getD 3))]
  else if recommend_budget cd (cd.target_roas.getD 3) < cd.daily_budget.getD 0 then
    [Recommendation.decreaseBudget (recommend_budget cd (cd.target_roas.getD 3))]
  else []

/-- CampaignOptimizer.generate_recommendations: the rule layer, appending
messages in source order, with the neutral message when no rule fired. -/
def generate_recommendations (cd : CampaignData) : List Recommendation :=
  let recommendations := ctrRecsOf cd ++ cpcRecsOf cd ++ roasRecsOf cd ++ budgetRecsOf cd
  if recommendations = [] then [Recommendation.performingWell] else recommendations

/-! Concrete inputs used by the scenario theorems and witnesses. -/

/-- Campaign A of the spec scenario: roas 4, conversions 10, cost 100. -/
def campA : Campaign :=
  { id := 1, roas := some 4, conversions := some 10, cost := some 100
    min_budget := none, max_budget := none }

/-- Campaign B of the spec scenario: roas 1, conversions 2, cost 50. -/
def campB : Campaign :=
  { id := 2, roas := some 1, conversions := some 2, cost := some 50
    min_budget := none, max_budget := none }

/-- A campaign whose cost key is present with value 0. -/
def zeroCostCampaign : Campaign :=
  { id := 1, roas := some 2, conversions := some 5, cost := some 0
    min_budget := none, max_budget := none }

/-- A campaign with a present cost strictly between 0 and 1. -/
def smallCostCampaign : Campaign :=
  { id := 1, roas := some 0, conversions := some 1, cost := some (1/2)
    min_budget := none, max_budget := none }

/-- A campaign carrying no metric keys: efficiency score 0, default bounds. -/
def zeroEffCampaign : Campaign :=
  { id := 1, roas := none, conversions := none, cost := none
    min_budget := none, max_budget := none }

/-- Campaign data with a negative target_roas and roas between 1.5 times
and 0.5 times that target. -/
def negativeTargetData : CampaignData :=
  { ctr := some (3/2), cpc := some 0, roas := some (-5/2)
    target_roas := some (-2), daily_budget := some 0 }

/-- Campaign data with the default positive target and a roas above it. -/
def ordinaryCampaignData : CampaignData :=
  { ctr := some 2, cpc := some 1, roas := some 4
    target_roas := some 3, daily_budget := some 0 }

/-! Helper lemmas about rounding. -/

/-- Round-half-even never goes below an integer lower bound of its argument. -/
lemma le_roundHalfEven {k : ℤ} {x : ℚ} (h : (k : ℚ) ≤ x) : k ≤ roundHalfEven x := by
  have hfl : k ≤ ⌊x⌋ := Int.le_floor.mpr h
  unfold roundHalfEven
  split
  · exact hfl
  · split
    · omega
    · split
      · exact hfl
      · omega

/-- Round-half-even never exceeds an integer upper bound of its argument. -/
lemma roundHalfEven_le {k : ℤ} {x : ℚ} (h : x ≤ (k : ℚ)) : roundHalfEven x ≤ k := by
  have hcl : ⌈x⌉ ≤ k := Int.ceil_le.mpr h
  have hfc : ⌊x⌋ ≤ ⌈x⌉ := Int.floor_le_ceil x
  unfold roundHalfEven
  split
  · omega
  · rename_i hlt
    push_neg at hlt
    have hx : (⌊x⌋ : ℚ) < x := by
      have h2 : (0 : ℚ) < 1/2 := by norm_num
      have := lt_of_lt_of_le h2 hlt
      linarith
    have hceil : ⌊x⌋ + 1 ≤ ⌈x⌉ := by
      have := Int.lt_ceil.mpr hx
      omega
    split
    · omega
    · split
      · omega
      · omega

/-- pyRound2 stays within any bounds that are two-decimal rationals. -/
lemma pyRound2_bounds {km kM : ℤ} {y : ℚ}
    (h1 : (km : ℚ) / 100 ≤ y) (h2 : y ≤ (kM : ℚ) / 100) :
    (km : ℚ) / 100 ≤ pyRound2 y ∧ pyRound2 y ≤ (kM : ℚ) / 100 := by
  have hl : (km : ℚ) ≤ y * 100 := by linarith
  have hr : y * 100 ≤ (kM : ℚ) := by linarith
  have hlo := le_roundHalfEven hl
  have hhi := roundHalfEven_le hr
  unfold pyRound2
  constructor
  · have : (km : ℚ) ≤ (roundHalfEven (y * 100) : ℚ) := by exact_mod_cast hlo
    linarith
  · have : ((roundHalfEven (y * 100) : ℤ) : ℚ) ≤ (kM : ℚ) := by exact_mod_cast hhi
    linarith

/-! Helper lemmas about score construction and the sort. -/

/-- A successful mkScores run returns exactly the scoreOf image of the input. -/
lemma mkScores_ok_eq : ∀ {l : List Campaign} {s : List CampaignScore},
    mkScores l = Except.ok s → s = l.map scoreOf := by
  intro l
  induction l with
  | nil => intro s h; simpa [mkScores] using h.symm
  | cons c cs ih =>
    intro s h
    unfold mkScores at h
    rcases he : efficiencyScore c with e | e
    · rw [he] at h; exact absurd h (by simp)
    · rw [he] at h
      rcases hr : mkScores cs with r | r
      · rw [hr] at h; exact absurd h (by simp)
      · rw [hr] at h
        simp only [Except.ok.injEq] at h
        have hrest := ih hr
        have hval : e = (scoreOf c).efficiency := by
          unfold efficiencyScore at he
          by_cases hc : c.cost.getD 1 = 0
          · rw [if_pos hc] at he; exact absurd he (by simp)
          · rw [if_neg hc] at he
            simp only [Except.ok.injEq] at he
            rw [← he]; rfl
        subst hrest
        rw [← h, hval]
        rfl

/-- mkScores succeeds whenever no campaign carries an explicit zero cost. -/
lemma mkScores_ok_of : ∀ {l : List Campaign},
    (∀ c ∈ l, c.cost.getD 1 ≠ 0) → mkScores l = Except.ok (l.map scoreOf) := by
  intro l
  induction l with
  | nil => intro _; rfl
  | cons c cs ih =>
    intro h
    have hc : c.cost.getD 1 ≠ 0 := h c (by simp)
    have hcs := ih (fun d hd => h d (by simp [hd]))
    unfold mkScores
    rw [efficiencyScore, if_neg hc, hcs]
    rfl

/-- Inserting into the descending sort is a permutation with consing. -/
lemma insertDesc_perm (s : CampaignScore) :
    ∀ l : List CampaignScore, List.Perm (insertDesc s l) (s :: l) := by
  intro l
  induction l with
  | nil => rfl
  | cons t ts ih =>
    unfold insertDesc
    split
    · exact ((ih.cons t).trans (List.Perm.swap s t ts))
    · rfl

/-- The stable descending sort permutes its input. -/
lemma sortByEfficiencyDesc_perm :
    ∀ l : List CampaignScore, List.Perm (sortByEfficiencyDesc l) l := by
  intro l
  induction l with
  | nil => rfl
  | cons s rest ih =>
    unfold sortByEfficiencyDesc
    exact (insertDesc_perm s _).trans (ih.cons s)

/-- The first component of an allocation entry is always the campaign id. -/
lemma allocEntry_fst (E : ℚ) (n : ℕ) (B : ℚ) (s : CampaignScore) :
    (allocEntry E n B s).1 = s.campaign_id := by
  unfold allocEntry; split <;> rfl

/-- Unfolding optimize_portfolio on a successful score construction. -/
lemma optimize_portfolio_eq {l : List Campaign} {s : List CampaignScore} (B : ℚ)
    (h : mkScores l = Except.ok s) :
    optimize_portfolio l B = Except.ok
      ((sortByEfficiencyDesc s).map
        (allocEntry (((sortByEfficiencyDesc s).map (fun t => t.efficiency)).sum)
          l.length B)) := by
  unfold optimize_portfolio
  rw [h]

/-- The efficiency total the loop uses equals the total over the raw input. -/
lemma sortedEfficiencySum (l : List Campaign) :
    (((sortByEfficiencyDesc (l.map scoreOf)).map (fun t => t.efficiency)).sum) =
      totalEfficiencyOf l := by
  unfold totalEfficiencyOf
  have hp := (sortByEfficiencyDesc_perm (l.map scoreOf)).map (fun t : CampaignScore => t.efficiency)
  rw [hp.sum_eq, List.map_map]
  rfl

/-- Association-list lookup is invariant under permutation when the keys
are distinct (Python dict semantics for distinct campaign ids). -/
lemma lookup_eq_of_perm {α β : Type} [BEq α] [LawfulBEq α] :
    ∀ {r₁ r₂ : List (α × β)}, List.Perm r₁ r₂ →
      (r₁.map Prod.fst).Nodup → ∀ k : α, r₁.lookup k = r₂.lookup k := by
  intro r₁ r₂ hp
  induction hp with
  | nil => intro _ _; rfl
  | cons x p ih =>
    intro hn k
    rcases x with ⟨a, b⟩
    have hn2 : ((_ : List (α × β)).map Prod.fst).Nodup := (List.nodup_cons.mp hn).2
    cases hka : (k == a)
    · simp only [List.lookup, hka]
      exact ih hn2 k
    · simp only [List.lookup, hka]
  | swap x y p =>
    intro hn k
    rcases x with ⟨a, b⟩
    rcases y with ⟨c, d⟩
    have hac : ¬ (c = a) := by
      have := (List.nodup_cons.mp hn).1
      intro hca
      exact this (by simp [hca])
    cases hka : (k == a) <;> cases hkc : (k == c) <;>
      simp only [List.lookup, hka, hkc]
    have h1 : k = a := by simpa using hka
    have h2 : k = c := by simpa using hkc
    exact absurd (h2.symm.trans h1) hac
  | trans p₁ p₂ ih₁ ih₂ =>
    intro hn k
    have hn₂ := ((p₁.map Prod.fst).nodup_iff).mp hn
    exact (ih₁ hn k).trans (ih₂ hn₂ k)

/-- The keys of the allocation list are the campaign ids of the scores. -/
lemma allocMap_keys (E : ℚ) (n : ℕ) (B : ℚ) :
    ∀ s : List CampaignScore,
      (s.map (allocEntry E n B)).map Prod.fst = s.map (fun t => t.campaign_id) := by
  intro s
  induction s with
  | nil => rfl
  | cons t ts ih => simp [allocEntry_fst, ih]

/-- The campaign ids of the constructed scores are the input campaign ids. -/
lemma scoreOf_ids (l : List Campaign) :
    (l.map scoreOf).map (fun t => t.campaign_id) = l.map Campaign.id := by
  induction l with
  | nil => rfl
  | cons c cs ih => simp [scoreOf, ih]

/-! Claim theorems. -/

/-- C5 counterexample: on a record list with a negative impressions total,
summarize returns average_ctr 0 (its guard is denominator strictly
positive), while the claimed totals-with-equality-zero-guard computation
yields -50; so the two disagree, refuting the claim as stated. -/
theorem summarize_negative_denominator_cex :
    (summarize [{ impressions := -10, clicks := 5, conversions := 0, cost := 0, revenue := 0 }]).average_ctr = 0 ∧
    (specSummarize [{ impressions := -10, clicks := 5, conversions := 0, cost := 0, revenue := 0 }]).average_ctr = -50 ∧
    summarize [{ impressions := -10, clicks := 5, conversions := 0, cost := 0, revenue := 0 }] ≠
      specSummarize [{ impressions := -10, clicks := 5, conversions := 0, cost := 0, revenue := 0 }] := by
  refine ⟨by norm_num [summarize], by norm_num [specSummarize], ?_⟩
  intro h
  have h2 := congrArg AnalyticsSummary.average_ctr h
  norm_num [summarize, specSummarize] at h2

/-- C5 amended: for every finite record sequence, summarize returns totals
equal to the component-wise sums, and each derived ratio equals the
totals-based formula when its denominator is strictly positive and 0
otherwise (so in particular 0 when the denominator is 0 or negative); on
the empty sequence everything is 0; summarize is a total function, so the
operation never raises. -/
theorem summarize_totals_and_ratios (rs : List AnalyticsRecord) :
    (summarize rs).total_impressions = (rs.map (fun a => a.impressions)).sum ∧
    (summarize rs).total_clicks = (rs.map (fun a => a.clicks)).sum ∧
    (summarize rs).total_conversions = (rs.map (fun a => a.conversions)).sum ∧
    (summarize rs).total_cost = (rs.map (fun a => a.cost)).sum ∧
    (summarize rs).total_revenue = (rs.map (fun a => a.revenue)).sum ∧
    (summarize rs).average_ctr =
      (if 0 < (summarize rs).total_impressions then
        (summarize rs).total_clicks / (summarize rs).total_impressions * 100 else 0) ∧
    (summarize rs).average_cpc =
      (if 0 < (summarize rs).total_clicks then
        (summarize rs).total_cost / (summarize rs).total_clicks else 0) ∧
    (summarize rs).average_cpa =
      (if 0 < (summarize rs).total_conversions then
        (summarize rs).total_cost / (summarize rs).total_conversions else 0) ∧
    (summarize rs).total_roas =
      (if 0 < (summarize rs).total_cost then
        (summarize rs).total_revenue / (summarize rs).total_cost else 0) ∧
    summarize [] = zeroSummary := by
  refine ⟨rfl, rfl, rfl, rfl, rfl, rfl, rfl, rfl, rfl, ?_⟩
  simp [summarize, zeroSummary]

/-- C4 counterexample: get_campaign_trends with a window of 0 days returns
a normal trends result, not an InvalidArgument error, refuting the claim
that non-positive window sizes fail. -/
theorem get_campaign_trends_zero_window_cex :
    get_campaign_trends (some ()) 0 [] =
      Except.ok { period_days := 0, data_points := 0, daily_data := []
                  totals := { impressions := 0, clicks := 0, conversions := 0
                              cost := 0, revenue := 0 } } := rfl

/-- C4 amended: get_campaign_trends applies no validation to its days
parameter: whenever the campaign resolves it returns a normal trends
result echoing days (zero, negative or positive alike), and its only
error is NotFound when the campaign lookup resolves to nothing. -/
theorem get_campaign_trends_no_window_validation (days : ℤ) (recs : List TrendRecord) :
    (∃ t, get_campaign_trends (some ()) days recs = Except.ok t ∧
      t.period_days = days ∧ t.data_points = recs.length) ∧
    get_campaign_trends none days recs = Except.error ApiError.notFound := by
  exact ⟨⟨_, rfl, rfl, rfl⟩, rfl⟩

/-- C3 counterexample: optimize_portfolio performs no argument validation:
on an empty campaign list it returns an empty allocation dict, and on a
negative total budget it returns a normal (clamped) allocation; neither
raises, refuting the claim that these inputs fail with InvalidArgument. -/
theorem optimize_portfolio_no_validation_cex :
    optimize_portfolio [] 100 = Except.ok [] ∧
    optimize_portfolio [campA] (-5) = Except.ok [(1, 10)] := by
  constructor
  · rfl
  · norm_num [optimize_portfolio, mkScores, efficiencyScore, campA,
      sortByEfficiencyDesc, insertDesc, allocEntry, pyRound2, roundHalfEven,
      Int.floor_eq_iff, -Int.self_sub_floor]

/-- C3 amended: optimize_portfolio never raises InvalidArgument: provided
no campaign carries an explicit zero cost, it returns a normal result even
on the inputs the spec calls invalid (non-positive total budget or an
empty campaign list). -/
theorem optimize_portfolio_total_on_invalid (l : List Campaign) (B : ℚ)
    (hcost : ∀ c ∈ l, c.cost.getD 1 ≠ 0) (hbad : B ≤ 0 ∨ l = []) :
    ∃ r, optimize_portfolio l B = Except.ok r :=
  ⟨_, optimize_portfolio_eq B (mkScores_ok_of hcost)⟩

/-- Witness for the amended C3 theorem at the empty list and budget -1. -/
theorem optimize_portfolio_total_on_invalid_witness :
    (∀ c ∈ ([] : List Campaign), c.cost.getD 1 ≠ 0) ∧
    ((-1 : ℚ) ≤ 0 ∨ ([] : List Campaign) = []) ∧
    ∃ r, optimize_portfolio [] (-1) = Except.ok r :=
  ⟨by simp, by norm_num,
   optimize_portfolio_total_on_invalid [] (-1) (by simp) (by norm_num)⟩

/-- C2 counterexample: a campaign whose cost key is present with value 0
makes the efficiency computation raise ZeroDivisionError (and the whole
optimize_portfolio call fail), refuting the claimed max(cost, 1) guard;
moreover a present cost of 1/2 is used as the denominator directly, giving
3/5 where the claimed formula with max(cost, 1) gives 3/10. -/
theorem efficiency_zero_cost_cex :
    efficiencyScore zeroCostCampaign = Except.error "ZeroDivisionError" ∧
    optimize_portfolio [zeroCostCampaign] 100 = Except.error "ZeroDivisionError" ∧
    efficiencyScore smallCostCampaign = Except.ok (3/5) ∧
    ((0 : ℚ) * (7/10) + (1 : ℚ) / max (1/2) 1 * (3/10)) = 3/10 ∧ (3/5 : ℚ) ≠ 3/10 := by
  refine ⟨?_, ?_, ?_, by norm_num, by norm_num⟩
  · norm_num [efficiencyScore, zeroCostCampaign]
  · norm_num [optimize_portfolio, mkScores, efficiencyScore, zeroCostCampaign]
  · norm_num [efficiencyScore, smallCostCampaign]

/-- C2 amended: the efficiency score is 0.7 * roas + 0.3 * (conversions /
cost) where roas and conversions default to 0 and cost defaults to 1 only
when the key is absent; when the cost key is present with value 0 the
computation raises ZeroDivisionError instead of treating it as 1. -/
theorem efficiency_formula_amended (c : Campaign) :
    (c.cost = some 0 → efficiencyScore c = Except.error "ZeroDivisionError") ∧
    (c.cost.getD 1 ≠ 0 → efficiencyScore c =
      Except.ok ((c.roas.getD 0) * (7/10) + (c.conversions.getD 0) / (c.cost.getD 1) * (3/10))) := by
  constructor
  · intro h
    simp [efficiencyScore, h]
  · intro h
    rw [efficiencyScore, if_neg h]

/-- Witness for the amended C2 theorem: the zero-cost branch at
zeroCostCampaign and the formula branch at campA. -/
theorem efficiency_formula_amended_witness :
    (zeroCostCampaign.cost = some 0 ∧
      efficiencyScore zeroCostCampaign = Except.error "ZeroDivisionError") ∧
    (campA.cost.getD 1 ≠ 0 ∧
      efficiencyScore campA = Except.ok
        ((campA.roas.getD 0) * (7/10) + (campA.conversions.getD 0) / (campA.cost.getD 1) * (3/10))) :=
  ⟨⟨rfl, (efficiency_formula_amended zeroCostCampaign).1 rfl⟩,
   ⟨by norm_num [campA], (efficiency_formula_amended campA).2 (by norm_num [campA])⟩⟩

/-- The roas_model field after a run of training operations is still unset
exactly when it started unset and no roas training occurred. -/
lemma runOps_roas_none : ∀ (ops : List OptimizerOp) (st : CampaignOptimizerState),
    (runOps ops st).roas_model = none ↔
      (st.roas_model = none ∧ ∀ f, OptimizerOp.trainRoas f ∉ ops) := by
  intro ops
  induction ops with
  | nil => intro st; simp [runOps]
  | cons o rest ih =>
    intro st
    cases o with
    | trainRoas f =>
      simp only [runOps, List.foldl_cons, applyOp, train_roas_model] at *
      rw [ih]
      constructor
      · rintro ⟨h, -⟩
        exact absurd h (by simp)
      · rintro ⟨-, hall⟩
        exact absurd (List.mem_cons_self _ _) (hall f)
    | trainConversion f =>
      simp only [runOps, List.foldl_cons, applyOp, train_conversion_model] at *
      rw [ih]
      simp

/-- The conversion_model field after a run of training operations is still
unset exactly when it started unset and no conversion training occurred. -/
lemma runOps_conversion_none : ∀ (ops : List OptimizerOp) (st : CampaignOptimizerState),
    (runOps ops st).conversion_model = none ↔
      (st.conversion_model = none ∧ ∀ f, OptimizerOp.trainConversion f ∉ ops) := by
  intro ops
  induction ops with
  | nil => intro st; simp [runOps]
  | cons o rest ih =>
    intro st
    cases o with
    | trainRoas f =>
      simp only [runOps, List.foldl_cons, applyOp, train_roas_model] at *
      rw [ih]
      simp
    | trainConversion f =>
      simp only [runOps, List.foldl_cons, applyOp, train_conversion_model] at *
      rw [ih]
      constructor
      · rintro ⟨h, -⟩
        exact absurd h (by simp)
      · rintro ⟨-, hall⟩
        exact absurd (List.mem_cons_self _ _) (hall f)

/-- C7: starting from the untrained optimizer and running any sequence of
training operations, predict_roas raises ModelNotTrained exactly when no
ROAS training has run, and predict_conversions raises ModelNotTrained
exactly when no conversion training has run; in particular both predicts
fail before any training and succeed after the corresponding training. -/
theorem predict_requires_training (ops : List OptimizerOp) (features : List ℚ) :
    (predict_roas (runOps ops initialOptimizer) features =
        Except.error MLError.modelNotTrained ↔ ∀ f, OptimizerOp.trainRoas f ∉ ops) ∧
    (predict_conversions (runOps ops initialOptimizer) features =
        Except.error MLError.modelNotTrained ↔ ∀ f, OptimizerOp.trainConversion f ∉ ops) := by
  constructor
  · rw [show (predict_roas (runOps ops initialOptimizer) features =
        Except.error MLError.modelNotTrained) ↔
        ((runOps ops initialOptimizer).roas_model = none) from ?_]
    · rw [runOps_roas_none]
      simp [initialOptimizer]
    · unfold predict_roas
      cases h : (runOps ops initialOptimizer).roas_model <;> simp [h]
  · rw [show (predict_conversions (runOps ops initialOptimizer) features =
        Except.error MLError.modelNotTrained) ↔
        ((runOps ops initialOptimizer).conversion_model = none) from ?_]
    · rw [runOps_conversion_none]
      simp [initialOptimizer]
    · unfold predict_conversions
      cases h : (runOps ops initialOptimizer).conversion_model <;> simp [h]

/-- C9: the spec scenario: campaigns A (roas 4, conversions 10, cost 100)
and B (roas 1, conversions 2, cost 50) with default bounds and total
budget 300 give efficiency scores 2.83 and 0.712, total 3.542, and the
allocation maps A to 239.70 and B to 60.30. -/
theorem scenario_two_campaign_allocation :
    efficiencyScore campA = Except.ok (283/100) ∧
    efficiencyScore campB = Except.ok (712/1000) ∧
    totalEfficiencyOf [campA, campB] = 3542/1000 ∧
    optimize_portfolio [campA, campB] 300 =
      Except.ok [(1, 23970/100), (2, 6030/100)] := by
  refine ⟨?_, ?_, ?_, ?_⟩
  · norm_num [efficiencyScore, campA]
  · norm_num [efficiencyScore, campB]
  · norm_num [totalEfficiencyOf, scoreOf, campA, campB]
  · norm_num [optimize_portfolio, mkScores, efficiencyScore, campA, campB,
      sortByEfficiencyDesc, insertDesc, allocEntry, pyRound2, roundHalfEven,
      Int.floor_eq_iff, -Int.self_sub_floor]

/-- C1 counterexample: with a single campaign of zero efficiency (all
metric keys absent) and total budget 4, the equal-split fallback returns
4.00, below the default min_budget of 10: the fallback branch applies no
clamping, refuting the claim that every value lies within the bounds. -/
theorem allocation_bounds_cex :
    optimize_portfolio [zeroEffCampaign] 4 = Except.ok [(1, 4)] ∧
    (4 : ℚ) < zeroEffCampaign.min_budget.getD 10 := by
  constructor
  · norm_num [optimize_portfolio, mkScores, efficiencyScore, zeroEffCampaign,
      sortByEfficiencyDesc, insertDesc, allocEntry, pyRound2, roundHalfEven,
      Int.floor_eq_iff, -Int.self_sub_floor]
  · norm_num [zeroEffCampaign]

/-- C1 amended: when the total efficiency is strictly positive and every
campaign has min_budget at most max_budget with both representable at two
decimal places, every budget in the allocation lies within the bounds of
its campaign; the zero-efficiency equal-split fallback is not clamped and
can leave the bounds. -/
theorem allocations_within_bounds (l : List Campaign) (B : ℚ) (r : List (ℕ × ℚ))
    (h : optimize_portfolio l B = Except.ok r)
    (hE : 0 < totalEfficiencyOf l)
    (hb : ∀ c ∈ l, c.min_budget.getD 10 ≤ c.max_budget.getD 1000 ∧
      is2dp (c.min_budget.getD 10) ∧ is2dp (c.max_budget.getD 1000)) :
    ∀ p ∈ r, ∃ c ∈ l, p.1 = c.id ∧
      c.min_budget.getD 10 ≤ p.2 ∧ p.2 ≤ c.max_budget.getD 1000 := by
  intro p hp
  rcases hms : mkScores l with e | s
  · rw [optimize_portfolio, hms] at h
    exact absurd h (by simp)
  · have hs := mkScores_ok_eq hms
    subst hs
    rw [optimize_portfolio_eq B hms] at h
    have hr : r = (sortByEfficiencyDesc (l.map scoreOf)).map
        (allocEntry (totalEfficiencyOf l) l.length B) := by
      injection h with h2
      rw [← h2, sortedEfficiencySum l]
    rw [hr] at hp
    rcases List.mem_map.mp hp with ⟨t, ht, hpt⟩
    have ht2 : t ∈ l.map scoreOf :=
      (sortByEfficiencyDesc_perm (l.map scoreOf)).mem_iff.mp ht
    rcases List.mem_map.mp ht2 with ⟨c, hc, hct⟩
    refine ⟨c, hc, ?_⟩
    rcases hb c hc with ⟨hmm, ⟨km, hkm⟩, ⟨kM, hkM⟩⟩
    subst hct
    rw [← hpt]
    simp only [allocEntry]
    rw [if_pos hE]
    have h1 : (km : ℚ)/100 ≤ max ((scoreOf c).min_budget)
        (min ((scoreOf c).max_budget) ((scoreOf c).efficiency / totalEfficiencyOf l * B)) := by
      rw [← hkm]
      exact le_max_left _ _
    have h2 : max ((scoreOf c).min_budget)
        (min ((scoreOf c).max_budget) ((scoreOf c).efficiency / totalEfficiencyOf l * B)) ≤
        (kM : ℚ)/100 := by
      rw [← hkM]
      exact max_le hmm (min_le_left _ _)
    have hbd := pyRound2_bounds h1 h2
    refine ⟨rfl, ?_, ?_⟩
    · rw [hkm]
      exact hbd.1
    · rw [hkM]
      exact hbd.2

/-- Witness for the amended C1 theorem: one campaign with positive
efficiency, default bounds, budget 300, allocation clamped into range. -/
theorem allocations_within_bounds_witness :
    optimize_portfolio [campA] 300 = Except.ok [(1, 300)] ∧
    (0 : ℚ) < totalEfficiencyOf [campA] ∧
    (∀ c ∈ [campA], c.min_budget.getD 10 ≤ c.max_budget.getD 1000 ∧
      is2dp (c.min_budget.getD 10) ∧ is2dp (c.max_budget.getD 1000)) ∧
    ∃ c ∈ [campA], ((1 : ℕ), (300 : ℚ)).1 = c.id ∧
      c.min_budget.getD 10 ≤ ((1 : ℕ), (300 : ℚ)).2 ∧
      ((1 : ℕ), (300 : ℚ)).2 ≤ c.max_budget.getD 1000 := by
  have hopt : optimize_portfolio [campA] 300 = Except.ok [(1, 300)] := by
    norm_num [optimize_portfolio, mkScores, efficiencyScore, campA,
      sortByEfficiencyDesc, insertDesc, allocEntry, pyRound2, roundHalfEven,
      Int.floor_eq_iff, -Int.self_sub_floor]
  have hE : (0 : ℚ) < totalEfficiencyOf [campA] := by
    norm_num [totalEfficiencyOf, scoreOf, campA]
  have hb : ∀ c ∈ [campA], c.min_budget.getD 10 ≤ c.max_budget.getD 1000 ∧
      is2dp (c.min_budget.getD 10) ∧ is2dp (c.max_budget.getD 1000) := by
    intro c hc
    rcases List.mem_singleton.mp hc with rfl
    refine ⟨by norm_num [campA], ⟨1000, by norm_num [campA]⟩, ⟨100000, by norm_num [campA]⟩⟩
  exact ⟨hopt, hE, hb,
    allocations_within_bounds [campA] 300 [(1, 300)] hopt hE hb (1, 300) (by simp)⟩

/-- C10: on a successful allocation over campaigns with pairwise-distinct
ids, the returned mapping has exactly one entry per input campaign: its
keys are a permutation of the input ids and are themselves distinct, so no
campaign is dropped and no extra key appears. -/
theorem allocation_keys_exact (l : List Campaign) (B : ℚ) (r : List (ℕ × ℚ))
    (h : optimize_portfolio l B = Except.ok r)
    (hn : (l.map Campaign.id).Nodup) :
    List.Perm (r.map Prod.fst) (l.map Campaign.id) ∧ (r.map Prod.fst).Nodup := by
  rcases hms : mkScores l with e | s
  · rw [optimize_portfolio, hms] at h
    exact absurd h (by simp)
  · have hs := mkScores_ok_eq hms
    subst hs
    rw [optimize_portfolio_eq B hms] at h
    have hr : r = (sortByEfficiencyDesc (l.map scoreOf)).map
        (allocEntry (((sortByEfficiencyDesc (l.map scoreOf)).map (fun t => t.efficiency)).sum)
          l.length B) := by
      injection h with h2
      exact h2.symm
    have hkeys : r.map Prod.fst =
        (sortByEfficiencyDesc (l.map scoreOf)).map (fun t => t.campaign_id) := by
      rw [hr, allocMap_keys]
    have hperm : List.Perm (r.map Prod.fst) (l.map Campaign.id) := by
      rw [hkeys, ← scoreOf_ids l]
      exact (sortByEfficiencyDesc_perm (l.map scoreOf)).map (fun t => t.campaign_id)
    exact ⟨hperm, (hperm.nodup_iff).mpr hn⟩

/-- Witness for the C10 theorem at the two-campaign scenario input. -/
theorem allocation_keys_exact_witness :
    optimize_portfolio [campA, campB] 300 = Except.ok [(1, 23970/100), (2, 6030/100)] ∧
    (([campA, campB].map Campaign.id).Nodup) ∧
    List.Perm (([((1 : ℕ), (23970 : ℚ)/100), (2, 6030/100)]).map Prod.fst)
      ([campA, campB].map Campaign.id) ∧
    (([((1 : ℕ), (23970 : ℚ)/100), (2, 6030/100)]).map Prod.fst).Nodup := by
  have hopt : optimize_portfolio [campA, campB] 300 =
      Except.ok [(1, 23970/100), (2, 6030/100)] := by
    norm_num [optimize_portfolio, mkScores, efficiencyScore, campA, campB,
      sortByEfficiencyDesc, insertDesc, allocEntry, pyRound2, roundHalfEven,
      Int.floor_eq_iff, -Int.self_sub_floor]
  have hn : ([campA, campB].map Campaign.id).Nodup := by
    norm_num [campA, campB]
  have hmain := allocation_keys_exact [campA, campB] 300 _ hopt hn
  exact ⟨hopt, hn, hmain.1, hmain.2⟩

/-- C6: over campaigns with pairwise-distinct ids, the allocation mapping
is invariant under permutation of the input sequence: every campaign id is
mapped to the same budget by both runs (the sort affects only insertion
order, and each allocation depends only on the campaign's own score, the
efficiency total, and the campaign count). -/
theorem allocation_permutation_invariant (l₁ l₂ : List Campaign) (B : ℚ)
    (hp : List.Perm l₁ l₂) (hn : (l₁.map Campaign.id).Nodup)
    (r₁ r₂ : List (ℕ × ℚ))
    (h₁ : optimize_portfolio l₁ B = Except.ok r₁)
    (h₂ : optimize_portfolio l₂ B = Except.ok r₂) (k : ℕ) :
    r₁.lookup k = r₂.lookup k := by
  rcases hm₁ : mkScores l₁ with e | s₁
  · rw [optimize_portfolio, hm₁] at h₁
    exact absurd h₁ (by simp)
  rcases hm₂ : mkScores l₂ with e | s₂
  · rw [optimize_portfolio, hm₂] at h₂
    exact absurd h₂ (by simp)
  have hs₁ := mkScores_ok_eq hm₁
  subst hs₁
  have hs₂ := mkScores_ok_eq hm₂
  subst hs₂
  rw [optimize_portfolio_eq B hm₁] at h₁
  rw [optimize_portfolio_eq B hm₂] at h₂
  have hr₁ : r₁ = (sortByEfficiencyDesc (l₁.map scoreOf)).map
      (allocEntry (totalEfficiencyOf l₁) l₁.length B) := by
    injection h₁ with h
    rw [← h, sortedEfficiencySum l₁]
  have hr₂ : r₂ = (sortByEfficiencyDesc (l₂.map scoreOf)).map
      (allocEntry (totalEfficiencyOf l₂) l₂.length B) := by
    injection h₂ with h
    rw [← h, sortedEfficiencySum l₂]
  have hE : totalEfficiencyOf l₂ = totalEfficiencyOf l₁ :=
    ((hp.map (fun c => (scoreOf c).efficiency)).sum_eq).symm
  have hlen : l₂.length = l₁.length := hp.length_eq.symm
  have hperm : List.Perm r₁ r₂ := by
    rw [hr₁, hr₂, hE, hlen]
    exact ((sortByEfficiencyDesc_perm (l₁.map scoreOf)).map _).trans
      (((hp.map scoreOf).map _).trans
        (((sortByEfficiencyDesc_perm (l₂.map scoreOf)).symm).map _))
  have hkeys : (r₁.map Prod.fst).Nodup := by
    rw [hr₁, allocMap_keys]
    have hpk : List.Perm
        ((sortByEfficiencyDesc (l₁.map scoreOf)).map (fun t => t.campaign_id))
        (l₁.map Campaign.id) := by
      rw [← scoreOf_ids l₁]
      exact (sortByEfficiencyDesc_perm (l₁.map scoreOf)).map _
    exact hpk.nodup_iff.mpr hn
  exact lookup_eq_of_perm hperm hkeys k

/-- Witness for the C6 theorem: the scenario campaigns in both orders give
the same mapping, looked up at id 1. -/
theorem allocation_permutation_invariant_witness :
    List.Perm [campA, campB] [campB, campA] ∧
    (([campA, campB].map Campaign.id).Nodup) ∧
    optimize_portfolio [campA, campB] 300 = Except.ok [(1, 23970/100), (2, 6030/100)] ∧
    optimize_portfolio [campB, campA] 300 = Except.ok [(1, 23970/100), (2, 6030/100)] ∧
    ([((1 : ℕ), (23970 : ℚ)/100), (2, 6030/100)]).lookup 1 =
      ([((1 : ℕ), (23970 : ℚ)/100), (2, 6030/100)]).lookup 1 := by
  have hperm : List.Perm [campA, campB] [campB, campA] := List.Perm.swap campB campA []
  have hn : ([campA, campB].map Campaign.id).Nodup := by
    norm_num [campA, campB]
  have h₁ : optimize_portfolio [campA, campB] 300 =
      Except.ok [(1, 23970/100), (2, 6030/100)] := by
    norm_num [optimize_portfolio, mkScores, efficiencyScore, campA, campB,
      sortByEfficiencyDesc, insertDesc, allocEntry, pyRound2, roundHalfEven,
      Int.floor_eq_iff, -Int.self_sub_floor]
  have h₂ : optimize_portfolio [campB, campA] 300 =
      Except.ok [(1, 23970/100), (2, 6030/100)] := by
    norm_num [optimize_portfolio, mkScores, efficiencyScore, campA, campB,
      sortByEfficiencyDesc, insertDesc, allocEntry, pyRound2, roundHalfEven,
      Int.floor_eq_iff, -Int.self_sub_floor]
  exact ⟨hperm, hn, h₁, h₂,
    allocation_permutation_invariant [campA, campB] [campB, campA] 300
      hperm hn _ _ h₁ h₂ 1⟩

/-! Helper lemmas for the recommendation rule layer. -/

/-- Members of the CTR block are CTR messages. -/
lemma ctrRecs_shape (cd : CampaignData) (m : Recommendation) (hm : m ∈ ctrRecsOf cd) :
    m = Recommendation.lowCtr ∨ m = Recommendation.scaleCtr := by
  unfold ctrRecsOf at hm
  split_ifs at hm <;> simp_all

/-- Members of the CPC block are the high-CPC message. -/
lemma cpcRecs_shape (cd : CampaignData) (m : Recommendation) (hm : m ∈ cpcRecsOf cd) :
    m = Recommendation.highCpc := by
  unfold cpcRecsOf at hm
  split_ifs at hm <;> simp_all

/-- Members of the ROAS block are ROAS messages. -/
lemma roasRecs_shape (cd : CampaignData) (m : Recommendation) (hm : m ∈ roasRecsOf cd) :
    m = Recommendation.majorRoas ∨ m = Recommendation.optimizeRoas ∨
      m = Recommendation.scaleRoas := by
  unfold roasRecsOf at hm
  split_ifs at hm <;> simp_all

/-- Members of the budget block are budget messages. -/
lemma budgetRecs_shape (cd : CampaignData) (m : Recommendation) (hm : m ∈ budgetRecsOf cd) :
    (∃ a, m = Recommendation.increaseBudget a) ∨
      (∃ a, m = Recommendation.decreaseBudget a) := by
  unfold budgetRecsOf at hm
  split_ifs at hm <;> simp_all

/-- The low-CTR message appears in the CTR block iff ctr is below 1. -/
lemma lowCtr_mem_ctrRecs (cd : CampaignData) :
    Recommendation.lowCtr ∈ ctrRecsOf cd ↔ cd.ctr.getD 0 < 1 := by
  unfold ctrRecsOf
  split_ifs with h1 h2 <;> simp_all

/-- The CTR scale message appears in the CTR block iff ctr exceeds 3 (the
elif is equivalent to the plain threshold since 3 < ctr excludes ctr < 1). -/
lemma scaleCtr_mem_ctrRecs (cd : CampaignData) :
    Recommendation.scaleCtr ∈ ctrRecsOf cd ↔ 3 < cd.ctr.getD 0 := by
  unfold ctrRecsOf
  split_ifs with h1 h2 <;> simp_all
  linarith

/-- The high-CPC message appears in the CPC block iff cpc exceeds 5. -/
lemma highCpc_mem_cpcRecs (cd : CampaignData) :
    Recommendation.highCpc ∈ cpcRecsOf cd ↔ 5 < cd.cpc.getD 0 := by
  unfold cpcRecsOf
  split_ifs with h1 <;> simp_all

/-- The major-optimization message appears in the ROAS block iff roas is
below half the target. -/
lemma majorRoas_mem_roasRecs (cd : CampaignData) :
    Recommendation.majorRoas ∈ roasRecsOf cd ↔
      cd.roas.getD 0 < cd.target_roas.getD 3 * (5/10) := by
  unfold roasRecsOf
  split_ifs with h1 h2 h3 <;> simp_all

/-- The optimize message appears in the ROAS block iff roas lies in the
half-target-to-target band. -/
lemma optimizeRoas_mem_roasRecs (cd : CampaignData) :
    Recommendation.optimizeRoas ∈ roasRecsOf cd ↔
      (cd.target_roas.getD 3 * (5/10) ≤ cd.roas.getD 0 ∧
        cd.roas.getD 0 < cd.target_roas.getD 3) := by
  unfold roasRecsOf
  split_ifs with h1 h2 h3 <;> simp_all

/-- With a non-negative target, the ROAS scale message appears in the ROAS
block iff roas exceeds 1.5 times the target (the elif chain cannot mask it
because a roas above 1.5 times a non-negative target is also at or above
the target). -/
lemma scaleRoas_mem_roasRecs (cd : CampaignData)
    (ht : 0 ≤ cd.target_roas.getD 3) :
    Recommendation.scaleRoas ∈ roasRecsOf cd ↔
      cd.target_roas.getD 3 * (15/10) < cd.roas.getD 0 := by
  unfold roasRecsOf
  split_ifs with h1 h2 h3 <;> simp_all
  · linarith
  · linarith

/-- The neutral message never appears in any rule block. -/
lemma performingWell_not_in_parts (cd : CampaignData) :
    Recommendation.performingWell ∉
      (ctrRecsOf cd ++ cpcRecsOf cd ++ roasRecsOf cd ++ budgetRecsOf cd) := by
  intro h
  rcases List.mem_append.mp h with h | h
  · rcases List.mem_append.mp h with h | h
    · rcases List.mem_append.mp h with h | h
      · rcases ctrRecs_shape cd _ h with h2 | h2 <;> cases h2
      · cases cpcRecs_shape cd _ h
    · rcases roasRecs_shape cd _ h with h2 | h2 | h2 <;> cases h2
  · rcases budgetRecs_shape cd _ h with ⟨a, h2⟩ | ⟨a, h2⟩ <;> cases h2

/-- For any message other than the neutral one, membership in the final
recommendation list is membership in the concatenation of the rule blocks. -/
lemma mem_generate_iff (cd : CampaignData) (m : Recommendation)
    (hm : m ≠ Recommendation.performingWell) :
    m ∈ generate_recommendations cd ↔
      m ∈ (ctrRecsOf cd ++ cpcRecsOf cd ++ roasRecsOf cd ++ budgetRecsOf cd) := by
  simp only [generate_recommendations]
  split_ifs with h
  · rw [h]
    simp [hm]
  · exact Iff.rfl

/-- C8 counterexample: with target_roas = -2 and roas = -2.5, roas exceeds
1.5 times the target (-3), yet the elif chain fires the major-optimization
rule first and no ROAS scale message is emitted, refuting the claim that
the scale message appears exactly when roas exceeds 1.5 times the target. -/
theorem recommendation_negative_target_cex :
    negativeTargetData.target_roas.getD 3 * (15/10) < negativeTargetData.roas.getD 0 ∧
    generate_recommendations negativeTargetData = [Recommendation.majorRoas] ∧
    Recommendation.scaleRoas ∉ generate_recommendations negativeTargetData := by
  have heval : generate_recommendations negativeTargetData = [Recommendation.majorRoas] := by
    norm_num [generate_recommendations, ctrRecsOf, cpcRecsOf, roasRecsOf,
      budgetRecsOf, recommend_budget, negativeTargetData, pyRound2,
      roundHalfEven, Int.floor_eq_iff, -Int.self_sub_floor]
  refine ⟨by norm_num [negativeTargetData], heval, ?_⟩
  rw [heval]
  simp

/-- C8 amended: for campaign data whose target_roas (defaulted to 3) is
non-negative, each threshold message appears exactly under its claimed
condition: low CTR iff ctr below 1, CTR scale iff ctr above 3, high CPC
iff cpc above 5, major optimization iff roas below half target, optimize
iff roas at least half target but below target, ROAS scale iff roas above
1.5 times target, and the neutral message appears exactly when it is the
whole output, that is, when no rule (budget rules included) fired.  For a
negative target the elif chain can suppress the scale message. -/
theorem recommendation_thresholds (cd : CampaignData)
    (ht : 0 ≤ cd.target_roas.getD 3) :
    (Recommendation.lowCtr ∈ generate_recommendations cd ↔ cd.ctr.getD 0 < 1) ∧
    (Recommendation.scaleCtr ∈ generate_recommendations cd ↔ 3 < cd.ctr.getD 0) ∧
    (Recommendation.highCpc ∈ generate_recommendations cd ↔ 5 < cd.cpc.getD 0) ∧
    (Recommendation.majorRoas ∈ generate_recommendations cd ↔
      cd.roas.getD 0 < 1/2 * cd.target_roas.getD 3) ∧
    (Recommendation.optimizeRoas ∈ generate_recommendations cd ↔
      (1/2 * cd.target_roas.getD 3 ≤ cd.roas.getD 0 ∧
        cd.roas.getD 0 < cd.target_roas.getD 3)) ∧
    (Recommendation.scaleRoas ∈ generate_recommendations cd ↔
      3/2 * cd.target_roas.getD 3 < cd.roas.getD 0) ∧
    (Recommendation.performingWell ∈ generate_recommendations cd ↔
      generate_recommendations cd = [Recommendation.performingWell]) := by
  have hhalf : cd.target_roas.getD 3 * (5/10) = 1/2 * cd.target_roas.getD 3 := by ring
  have hsesq : cd.target_roas.getD 3 * (15/10) = 3/2 * cd.target_roas.getD 3 := by ring
  refine ⟨?_, ?_, ?_, ?_, ?_, ?_, ?_⟩
  · rw [mem_generate_iff cd _ (by simp)]
    simp only [List.mem_append]
    constructor
    · rintro (((h | h) | h) | h)
      · exact (lowCtr_mem_ctrRecs cd).mp h
      · cases cpcRecs_shape cd _ h
      · rcases roasRecs_shape cd _ h with h2 | h2 | h2 <;> cases h2
      · rcases budgetRecs_shape cd _ h with ⟨a, h2⟩ | ⟨a, h2⟩ <;> cases h2
    · intro h
      exact Or.inl (Or.inl (Or.inl ((lowCtr_mem_ctrRecs cd).mpr h)))
  · rw [mem_generate_iff cd _ (by simp)]
    simp only [List.mem_append]
    constructor
    · rintro (((h | h) | h) | h)
      · exact (scaleCtr_mem_ctrRecs cd).mp h
      · cases cpcRecs_shape cd _ h
      · rcases roasRecs_shape cd _ h with h2 | h2 | h2 <;> cases h2
      · rcases budgetRecs_shape cd _ h with ⟨a, h2⟩ | ⟨a, h2⟩ <;> cases h2
    · intro h
      exact Or.inl (Or.inl (Or.inl ((scaleCtr_mem_ctrRecs cd).mpr h)))
  · rw [mem_generate_iff cd _ (by simp)]
    simp only [List.mem_append]
    constructor
    · rintro (((h | h) | h) | h)
      · rcases ctrRecs_shape cd _ h with h2 | h2 <;> cases h2
      · exact (highCpc_mem_cpcRecs cd).mp h
      · rcases roasRecs_shape cd _ h with h2 | h2 | h2 <;> cases h2
      · rcases budgetRecs_shape cd _ h with ⟨a, h2⟩ | ⟨a, h2⟩ <;> cases h2
    · intro h
      exact Or.inl (Or.inl (Or.inr ((highCpc_mem_cpcRecs cd).mpr h)))
  · rw [mem_generate_iff cd _ (by simp), ← hhalf]
    simp only [List.mem_append]
    constructor
    · rintro (((h | h) | h) | h)
      · rcases ctrRecs_shape cd _ h with h2 | h2 <;> cases h2
      · cases cpcRecs_shape cd _ h
      · exact (majorRoas_mem_roasRecs cd).mp h
      · rcases budgetRecs_shape cd _ h with ⟨a, h2⟩ | ⟨a, h2⟩ <;> cases h2
    · intro h
      exact Or.inl (Or.inr ((majorRoas_mem_roasRecs cd).mpr h))
  · rw [mem_generate_iff cd _ (by simp), ← hhalf]
    simp only [List.mem_append]
    constructor
    · rintro (((h | h) | h) | h)
      · rcases ctrRecs_shape cd _ h with h2 | h2 <;> cases h2
      · cases cpcRecs_shape cd _ h
      · exact (optimizeRoas_mem_roasRecs cd).mp h
      · rcases budgetRecs_shape cd _ h with ⟨a, h2⟩ | ⟨a, h2⟩ <;> cases h2
    · intro h
      exact Or.inl (Or.inr ((optimizeRoas_mem_roasRecs cd).mpr h))
  · rw [mem_generate_iff cd _ (by simp), ← hsesq]
    simp only [List.mem_append]
    constructor
    · rintro (((h | h) | h) | h)
      · rcases ctrRecs_shape cd _ h with h2 | h2 <;> cases h2
      · cases cpcRecs_shape cd _ h
      · exact (scaleRoas_mem_roasRecs cd ht).mp h
      · rcases budgetRecs_shape cd _ h with ⟨a, h2⟩ | ⟨a, h2⟩ <;> cases h2
    · intro h
      exact Or.inl (Or.inr ((scaleRoas_mem_roasRecs cd ht).mpr h))
  · simp only [generate_recommendations]
    split_ifs with h
    · simp
    · constructor
      · intro hmem
        exact absurd hmem (performingWell_not_in_parts cd)
      · intro heq
        rw [heq]
        simp

/-- Witness for the amended C8 theorem at a non-negative target: ctr 2,
cpc 1, roas 4, target 3, daily budget 0. -/
theorem recommendation_thresholds_witness :
    (0 : ℚ) ≤ ordinaryCampaignData.target_roas.getD 3 ∧
    ((Recommendation.lowCtr ∈ generate_recommendations ordinaryCampaignData ↔
        ordinaryCampaignData.ctr.getD 0 < 1) ∧
      (Recommendation.scaleCtr ∈ generate_recommendations ordinaryCampaignData ↔
        3 < ordinaryCampaignData.ctr.getD 0) ∧
      (Recommendation.highCpc ∈ generate_recommendations ordinaryCampaignData ↔
        5 < ordinaryCampaignData.cpc.getD 0) ∧
      (Recommendation.majorRoas ∈ generate_recommendations ordinaryCampaignData ↔
        ordinaryCampaignData.roas.getD 0 < 1/2 * ordinaryCampaignData.target_roas.getD 3) ∧
      (Recommendation.optimizeRoas ∈ generate_recommendations ordinaryCampaignData ↔
        (1/2 * ordinaryCampaignData.target_roas.getD 3 ≤ ordinaryCampaignData.roas.getD 0 ∧
          ordinaryCampaignData.roas.getD 0 < ordinaryCampaignData.target_roas.getD 3)) ∧
      (Recommendation.scaleRoas ∈ generate_recommendations ordinaryCampaignData ↔
        3/2 * ordinaryCampaignData.target_roas.getD 3 < ordinaryCampaignData.roas.getD 0) ∧
      (Recommendation.performingWell ∈ generate_recommendations ordinaryCampaignData ↔
        generate_recommendations ordinaryCampaignData = [Recommendation.performingWell])) :=
  ⟨by norm_num [ordinaryCampaignData],
   recommendation_thresholds ordinaryCampaignData (by norm_num [ordinaryCampaignData])⟩
